import Mathlib

/-!
Verification of the zenml secrets-management core (flavor registry,
secret encoding codec, and local secrets manager) against its
natural-language specification.

The repository ships only the unit-test suite for the local secrets
manager (`tests/unit/secrets_manager/test_local_secrets_manager.py`)
together with two secret-set class stubs; the manager, codec and
registry implementations themselves are not part of the source tree.
They are therefore modelled from the specification, with one behavior
pinned by the repository's own test: `test_delete_key_value` asserts
that after `delete_secret(name)` the persisted YAML document still
contains `name` as a key, mapped to `None` (`secret_store_items[name]
is None`), so deletion is modelled as null-marking the entry rather
than removing the key.
-/

namespace ZenMLSecrets

/-- Modelled from the spec: the closed enumeration of flavor identifiers
used for secret-schema variants (`LOCAL`, `AWS`, `DEFAULT`, ...); the
test suite exercises the arbitrary key/value schema variant. -/
inductive SecretFlavor
  | ARBITRARY
  | AWS
  | DEFAULT
deriving DecidableEq, Repr

/-- Modelled from the spec: the string discriminant stored for each
flavor in an encoded entry. -/
def flavorId : SecretFlavor → String
  | .ARBITRARY => "arbitrary"
  | .AWS => "aws"
  | .DEFAULT => "default"

/-- Modelled from the spec: a `SecretSchema` is a named bundle of
key/value credential data — `name` (non-empty), `content` (mapping of
string keys to optional string values, kept in insertion order), and a
read-only `flavor` discriminant. -/
structure SecretSchema where
  name : String
  flavor : SecretFlavor
  content : List (String × Option String)
deriving DecidableEq, Repr

/-- Modelled from the spec: a flavor-registry constructor is a factory
producing a `SecretSchema` of a given flavor; constructors are
identified by the flavor they build. -/
structure SchemaCtor where
  ctorFlavor : SecretFlavor
deriving DecidableEq, Repr

/-- Modelled from the spec: applying a resolved constructor to a name
and content yields the schema instance of the constructor's flavor. -/
def mkSchema (c : SchemaCtor) (name : String) (content : List (String × Option String)) : SecretSchema :=
  { name := name, flavor := c.ctorFlavor, content := content }

/-- Modelled from the spec: the Flavor Registry is process-wide state
associating each flavor identifier with at most one constructor. -/
abbrev Registry := List (String × SchemaCtor)

/-- Modelled from the spec: look a flavor identifier up in the
registry (first binding wins). -/
def lookupCtor (fid : String) : Registry → Option SchemaCtor
  | [] => none
  | (k, c) :: rest => if k = fid then some c else lookupCtor fid rest

/-- Modelled from the spec: registry error taxonomy
(`DuplicateFlavorError`, `UnknownFlavorError`). -/
inductive RegError
  | duplicateFlavor (fid : String)
  | unknownFlavor (fid : String)
deriving DecidableEq, Repr

/-- Modelled from the spec: `register(flavor_id, constructor)` fails
with `DuplicateFlavorError` if `flavor_id` is already bound to a
different constructor, and is a no-op if it is bound to an identical
constructor. -/
def registerFlavor (r : Registry) (fid : String) (c : SchemaCtor) : Except RegError Registry :=
  match lookupCtor fid r with
  | some c0 => if c0 = c then .ok r else .error (.duplicateFlavor fid)
  | none => .ok ((fid, c) :: r)

/-- Modelled from the spec: `resolve(flavor_id)` fails with
`UnknownFlavorError` if the flavor identifier is unregistered. -/
def resolveFlavor (r : Registry) (fid : String) : Except RegError SchemaCtor :=
  match lookupCtor fid r with
  | some c => .ok c
  | none => .error (.unknownFlavor fid)

/-- Modelled from the spec: the registry populated at component-load
time with every flavor of the deployment's enumeration. -/
def defaultRegistry : Registry :=
  [(flavorId .ARBITRARY, ⟨.ARBITRARY⟩),
   (flavorId .AWS, ⟨.AWS⟩),
   (flavorId .DEFAULT, ⟨.DEFAULT⟩)]

/-- Modelled from the spec: the reserved metadata key identifying the
schema flavor inside an encoded entry. -/
def FLAVOR_KEY : String := "__flavor"

/-- Modelled from the spec: `escape` prefixes every user key with a
fixed marker that `__flavor` does not start with, so a transformed key
never equals the reserved key and distinct keys never collide. -/
def escapeKey (k : String) : String := "u:" ++ k

/-- Modelled from the spec: the inverse transform recovers the exact
original key by dropping the fixed marker. -/
def unescapeKey (s : String) : String :=
  match s.data with
  | 'u' :: ':' :: rest => { data := rest }
  | _ => s

/-- Modelled from the spec: the reserved marker standing for an absent
(unset) value; it is distinguishable from any valid encoded value
because encoded values always start with the value marker. -/
def NONE_MARKER : String := "__absent__"

/-- Modelled from the spec: values are encoded with a fixed marker so
the absent-value sentinel can never be mistaken for a user value. -/
def encodeVal : Option String → String
  | some v => "v:" ++ v
  | none => NONE_MARKER

/-- Modelled from the spec: inverse of `encodeVal`; anything that does
not carry the value marker (in particular the sentinel) decodes to an
absent value. -/
def decodeVal (s : String) : Option String :=
  match s.data with
  | 'v' :: ':' :: rest => some { data := rest }
  | _ => none

/-- Modelled from the spec: an encoded entry is a flat string-keyed
mapping containing exactly one reserved flavor key plus one transformed
key per user content key. -/
abbrev EncodedEntry := List (String × String)

/-- Modelled from the spec: look a key up in an encoded entry. -/
def lookupStr (k : String) : EncodedEntry → Option String
  | [] => none
  | (k0, v) :: rest => if k0 = k then some v else lookupStr k rest

/-- Modelled from the spec: the secrets-manager error taxonomy
(`SecretNotFoundError`, `SecretAlreadyExistsError`, `CorruptEntryError`),
each carrying the offending secret name. -/
inductive SMError
  | secretNotFound (name : String)
  | secretAlreadyExists (name : String)
  | corruptEntry (name : String)
deriving DecidableEq, Repr

/-- Modelled from the spec: `encode(schema)` writes the reserved key
`__flavor` = the schema's flavor identifier, plus `escape(k)` =
`encodeVal(v)` for each `(k, v)` of the content. -/
def encode (s : SecretSchema) : EncodedEntry :=
  (FLAVOR_KEY, flavorId s.flavor) :: s.content.map (fun p => (escapeKey p.1, encodeVal p.2))

/-- Modelled from the spec: `decode(entry, name)` reads `__flavor`,
failing with `CorruptEntryError` if it is absent or unresolvable via
the Flavor Registry; it then unescapes every other key to reconstruct
the content and builds the schema via the resolved constructor. -/
def decode (r : Registry) (entry : EncodedEntry) (name : String) : Except SMError SecretSchema :=
  match lookupStr FLAVOR_KEY entry with
  | none => .error (.corruptEntry name)
  | some fid =>
    match lookupCtor fid r with
    | none => .error (.corruptEntry name)
    | some c =>
      .ok (mkSchema c name
        ((entry.filter (fun p => p.1 != FLAVOR_KEY)).map
          (fun p => (unescapeKey p.1, decodeVal p.2))))

/-- Modelled from the spec: the persisted Document is a single ordered
mapping from secret name to an encoded entry; the repository's own
test pins that a deleted name stays in the document mapped to null, so
each name maps to an optional encoded entry. -/
abbrev Document := List (String × Option EncodedEntry)

/-- Modelled from the spec: look a secret name up in the persisted
document (first binding wins). -/
def lookupKey (n : String) : Document → Option (Option EncodedEntry)
  | [] => none
  | (k, v) :: rest => if k = n then some v else lookupKey n rest

/-- Modelled from the spec: overwrite the binding of a name in the
document, appending it if absent. -/
def setKey (n : String) (v : Option EncodedEntry) : Document → Document
  | [] => [(n, v)]
  | (k, w) :: rest => if k = n then (n, v) :: rest else (k, w) :: setKey n v rest

/-- Modelled from the spec: a secret exists when the document binds its
name to a non-null encoded entry (a null-marked entry is a deleted
secret and does not exist). -/
def secretExists (d : Document) (n : String) : Bool :=
  match lookupKey n d with
  | some (some _) => true
  | _ => false

/-- Modelled from the spec: `register_secret(schema)` fails with
`SecretAlreadyExistsError` if the name is already present, else stores
the encoded schema. -/
def registerSecret (d : Document) (s : SecretSchema) : Except SMError Document :=
  if secretExists d s.name then .error (.secretAlreadyExists s.name)
  else .ok (setKey s.name (some (encode s)) d)

/-- Modelled from the spec: `get_secret(name)` fails with
`SecretNotFoundError` if the name is absent, else decodes the stored
entry; decode failures propagate to the caller. -/
def getSecret (r : Registry) (d : Document) (n : String) : Except SMError SecretSchema :=
  match lookupKey n d with
  | some (some e) => decode r e n
  | _ => .error (.secretNotFound n)

/-- Modelled from the spec: `update_secret(schema)` fails with
`SecretNotFoundError` if the name is absent, else replaces the stored
entry wholesale with the new encoding. -/
def updateSecret (d : Document) (s : SecretSchema) : Except SMError Document :=
  if secretExists d s.name then .ok (setKey s.name (some (encode s)) d)
  else .error (.secretNotFound s.name)

/-- Modelled from the spec: `delete_secret(name)` fails with
`SecretNotFoundError` if the name is absent; the repository's test
`test_delete_key_value` pins that deletion persists the name mapped to
null (`secret_store_items[name] is None`) rather than removing the
key, so deletion null-marks the binding. -/
def deleteSecret (d : Document) (n : String) : Except SMError Document :=
  if secretExists d n then .ok (setKey n none d)
  else .error (.secretNotFound n)

/-- Modelled from the spec: `list_secret_names()` is derived from the
document's keys; null-marked (deleted) bindings are skipped, but no
stored entry is ever dropped for being undecodable. -/
def listSecretNames (d : Document) : List String :=
  (d.filter (fun p => p.2.isSome)).map Prod.fst

/-- Modelled from the spec: every operation is read-document → mutate →
write-document, and the document is rewritten only when the operation
succeeds; a failed operation leaves the persisted document unchanged. -/
def applyOp (d : Document) (res : Except SMError Document) : Document :=
  match res with
  | .ok d2 => d2
  | .error _ => d

/-- Modelled from the spec: on first construction the Local Secrets
Manager creates the backing file with an empty Document if it does not
exist, and leaves an existing file untouched. -/
def initDocument : Option Document → Document
  | none => []
  | some d => d

/-- Modelled from the spec: constructing the manager ensures the
backing file exists, holding `initDocument` of the previous state. -/
def constructLocal (fs : Option Document) : Option Document :=
  some (initDocument fs)

theorem data_append (s t : String) : (s ++ t).data = s.data ++ t.data := rfl

theorem unescape_escape (k : String) : unescapeKey (escapeKey k) = k := by
  simp [unescapeKey, escapeKey]

theorem escapeKey_ne_flavor (k : String) : escapeKey k ≠ FLAVOR_KEY := by
  intro h
  have hd : (escapeKey k).data = FLAVOR_KEY.data := by rw [h]
  simp [escapeKey, FLAVOR_KEY, data_append] at hd

theorem decodeVal_encodeVal (v : Option String) : decodeVal (encodeVal v) = v := by
  cases v with
  | none => rfl
  | some v => simp [decodeVal, encodeVal]

theorem escapeKey_injective (k1 k2 : String) (h : escapeKey k1 = escapeKey k2) : k1 = k2 := by
  have h1 := unescape_escape k1
  rw [h, unescape_escape] at h1
  exact h1.symm

theorem lookupCtor_defaultRegistry (f : SecretFlavor) :
    lookupCtor (flavorId f) defaultRegistry = some ⟨f⟩ := by
  cases f <;> rfl

theorem decode_body (l : List (String × Option String)) :
    ((l.map (fun p => (escapeKey p.1, encodeVal p.2))).filter
        (fun p => p.1 != FLAVOR_KEY)).map
      (fun p => (unescapeKey p.1, decodeVal p.2)) = l := by
  induction l with
  | nil => rfl
  | cons p rest ih =>
    have hne : (escapeKey p.1 != FLAVOR_KEY) = true := by
      simp [bne_iff_ne]
      exact escapeKey_ne_flavor p.1
    simp only [List.map_cons, List.filter_cons, hne, if_pos, unescape_escape,
      decodeVal_encodeVal, ih]

theorem decode_encode (s : SecretSchema) :
    decode defaultRegistry (encode s) s.name = .ok s := by
  have hflav : lookupStr FLAVOR_KEY (encode s) = some (flavorId s.flavor) := by
    simp [encode, lookupStr]
  have hbody := decode_body s.content
  have hhead : ((FLAVOR_KEY, flavorId s.flavor) :: s.content.map
      (fun p => (escapeKey p.1, encodeVal p.2))).filter (fun p => p.1 != FLAVOR_KEY) =
      (s.content.map (fun p => (escapeKey p.1, encodeVal p.2))).filter
        (fun p => p.1 != FLAVOR_KEY) := by
    simp [List.filter_cons]
  simp only [decode, encode] at *
  rw [hflav]
  simp only [lookupCtor_defaultRegistry]
  rw [hhead, hbody]
  rfl

theorem lookupKey_setKey_self (n : String) (v : Option EncodedEntry) (d : Document) :
    lookupKey n (setKey n v d) = some v := by
  induction d with
  | nil => simp [setKey, lookupKey]
  | cons p rest ih =>
    by_cases h : p.1 = n
    · simp [setKey, h, lookupKey]
    · simp [setKey, h, lookupKey, ih]

theorem lookupKey_setKey_ne (k n : String) (v : Option EncodedEntry) (d : Document)
    (h : k ≠ n) : lookupKey k (setKey n v d) = lookupKey k d := by
  have hnk : ¬ (n = k) := fun hh => h hh.symm
  induction d with
  | nil => simp [setKey, lookupKey, hnk]
  | cons p rest ih =>
    by_cases hp : p.1 = n
    · have hk2 : ¬ (p.1 = k) := by rw [hp]; exact hnk
      simp [setKey, hp, lookupKey, hnk, hk2]
    · by_cases hk : p.1 = k
      · simp [setKey, hp, lookupKey, hk, h]
      · simp [setKey, hp, lookupKey, hk, ih]

theorem secretExists_setKey_entry (n : String) (e : EncodedEntry) (d : Document) :
    secretExists (setKey n (some e) d) n = true := by
  simp [secretExists, lookupKey_setKey_self]

theorem secretExists_setKey_null (n : String) (d : Document) :
    secretExists (setKey n none d) n = false := by
  simp [secretExists, lookupKey_setKey_self]

theorem getSecret_setKey_entry (r : Registry) (n : String) (e : EncodedEntry) (d : Document) :
    getSecret r (setKey n (some e) d) n = decode r e n := by
  simp [getSecret, lookupKey_setKey_self]

theorem getSecret_setKey_null (r : Registry) (n : String) (d : Document) :
    getSecret r (setKey n none d) n = .error (.secretNotFound n) := by
  simp [getSecret, lookupKey_setKey_self]

theorem lookupCtor_none_not_mem (fid : String) (r : Registry)
    (h : lookupCtor fid r = none) : fid ∉ r.map Prod.fst := by
  induction r with
  | nil => simp
  | cons p rest ih =>
    by_cases hp : p.1 = fid
    · simp [lookupCtor, hp] at h
    · simp only [lookupCtor, hp, if_neg, if_false] at h
      simp only [List.map_cons, List.mem_cons]
      intro hmem
      rcases hmem with hmem | hmem
      · exact hp hmem.symm
      · exact ih h hmem

theorem mem_listSecretNames_of_entry (n : String) (e : EncodedEntry) (d : Document)
    (h : lookupKey n d = some (some e)) : n ∈ listSecretNames d := by
  induction d with
  | nil => simp [lookupKey] at h
  | cons p rest ih =>
    by_cases hp : p.1 = n
    · simp only [lookupKey, hp, if_pos] at h
      have : p.2 = some e := by injection h
      simp [listSecretNames, List.filter_cons, this, hp]
    · simp only [lookupKey, hp, if_neg, if_false] at h
      have hmem := ih h
      simp only [listSecretNames, List.filter_cons]
      by_cases hs : p.2.isSome
      · simp only [hs, if_pos, List.map_cons, List.mem_cons]
        exact Or.inr (by simpa [listSecretNames] using hmem)
      · simp only [hs]
        simpa [listSecretNames] using hmem

/-- C1: for every valid schema (registered flavor, non-empty name, and any
content mapping of string keys to optional string values, including empty
strings and strings containing the reserved marker's characters), decoding
the encoding under the schema's name reconstructs a schema with identical
name, flavor and content. -/
theorem C1_roundtrip (s : SecretSchema) (_h : s.name ≠ "") :
    decode defaultRegistry (encode s) s.name = .ok s :=
  decode_encode s

theorem C1_roundtrip_witness :
    decode defaultRegistry
        (encode ⟨"db", .ARBITRARY,
          [("", some ""), ("__flavor", some "__absent__"), ("u:k", none)]⟩)
        "db" =
      .ok ⟨"db", .ARBITRARY,
        [("", some ""), ("__flavor", some "__absent__"), ("u:k", none)]⟩ :=
  C1_roundtrip
    ⟨"db", .ARBITRARY, [("", some ""), ("__flavor", some "__absent__"), ("u:k", none)]⟩
    (by decide)

/-- C2 counterexample: a concrete register-then-delete run after which the
persisted document still contains the secret name as a key (mapped to null),
refuting the claim that the document no longer contains the name as a key. -/
theorem C2_counterexample :
    registerSecret [] ⟨"db", .ARBITRARY, [("k", some "v")]⟩ =
      .ok [("db", some (encode ⟨"db", .ARBITRARY, [("k", some "v")]⟩))] ∧
    deleteSecret [("db", some (encode ⟨"db", .ARBITRARY, [("k", some "v")]⟩))] "db" =
      .ok [("db", none)] ∧
    lookupKey "db" [("db", none)] = some none := by
  refine ⟨rfl, rfl, rfl⟩

/-- C2 (amended): for every stored secret name, delete_secret succeeds and
afterwards get_secret fails with SecretNotFoundError; delete_secret on an
absent name fails with SecretNotFoundError; the persisted document, however,
retains the deleted name as a key mapped to a null entry rather than
dropping the key. -/
theorem C2_delete_terminal (r : Registry) (d : Document) (n : String) :
    (secretExists d n = true →
      deleteSecret d n = .ok (setKey n none d) ∧
      getSecret r (setKey n none d) n = .error (.secretNotFound n) ∧
      lookupKey n (setKey n none d) = some none) ∧
    (secretExists d n = false →
      deleteSecret d n = .error (.secretNotFound n)) := by
  constructor
  · intro h
    exact ⟨by simp [deleteSecret, h], getSecret_setKey_null r n d,
      lookupKey_setKey_self n none d⟩
  · intro h
    simp [deleteSecret, h]

theorem C2_delete_terminal_witness :
    (deleteSecret [("db", some [])] "db" = .ok (setKey "db" none [("db", some [])]) ∧
      getSecret defaultRegistry (setKey "db" none [("db", some [])]) "db" =
        .error (.secretNotFound "db") ∧
      lookupKey "db" (setKey "db" none [("db", some [])]) = some none) ∧
    deleteSecret [] "absent" = .error (.secretNotFound "absent") :=
  ⟨(C2_delete_terminal defaultRegistry [("db", some [])] "db").1 (by decide),
   (C2_delete_terminal defaultRegistry [] "absent").2 (by decide)⟩

/-- C3: after registering a schema with name n and then deleting n, reading
the persisted document back yields a mapping in which n is still present as
a key and maps to a null entry, rather than the key being absent. -/
theorem C3_delete_keeps_null_key (d : Document) (s : SecretSchema)
    (h : secretExists d s.name = false) :
    ∃ d1 d2, registerSecret d s = .ok d1 ∧ deleteSecret d1 s.name = .ok d2 ∧
      lookupKey s.name d2 = some none := by
  refine ⟨setKey s.name (some (encode s)) d,
    setKey s.name none (setKey s.name (some (encode s)) d), ?_, ?_, ?_⟩
  · simp [registerSecret, h]
  · simp [deleteSecret, secretExists_setKey_entry]
  · exact lookupKey_setKey_self _ _ _

theorem C3_delete_keeps_null_key_witness :
    ∃ d1 d2, registerSecret [] ⟨"db", .ARBITRARY, [("k", some "v")]⟩ = .ok d1 ∧
      deleteSecret d1 "db" = .ok d2 ∧ lookupKey "db" d2 = some none :=
  C3_delete_keeps_null_key [] ⟨"db", .ARBITRARY, [("k", some "v")]⟩ (by decide)

/-- C4: update_secret fails with SecretNotFoundError when the name is
absent; when present it replaces the stored entry wholesale with the new
encoding, so a subsequent get_secret returns exactly the new schema and
every key omitted from the new content is gone. -/
theorem C4_update_replaces (d : Document) (s : SecretSchema) :
    (secretExists d s.name = false →
      updateSecret d s = .error (.secretNotFound s.name)) ∧
    (secretExists d s.name = true →
      updateSecret d s = .ok (setKey s.name (some (encode s)) d) ∧
      getSecret defaultRegistry (setKey s.name (some (encode s)) d) s.name = .ok s) := by
  constructor
  · intro h
    simp [updateSecret, h]
  · intro h
    refine ⟨by simp [updateSecret, h], ?_⟩
    rw [getSecret_setKey_entry]
    exact decode_encode s

theorem C4_update_replaces_witness :
    updateSecret
        [("n", some (encode ⟨"n", .ARBITRARY, [("a", some "1"), ("b", some "2")]⟩))]
        ⟨"n", .ARBITRARY, [("a", some "3")]⟩ =
      .ok (setKey "n" (some (encode ⟨"n", .ARBITRARY, [("a", some "3")]⟩))
        [("n", some (encode ⟨"n", .ARBITRARY, [("a", some "1"), ("b", some "2")]⟩))]) ∧
    getSecret defaultRegistry
        (setKey "n" (some (encode ⟨"n", .ARBITRARY, [("a", some "3")]⟩))
          [("n", some (encode ⟨"n", .ARBITRARY, [("a", some "1"), ("b", some "2")]⟩))])
        "n" =
      .ok ⟨"n", .ARBITRARY, [("a", some "3")]⟩ :=
  (C4_update_replaces
    [("n", some (encode ⟨"n", .ARBITRARY, [("a", some "1"), ("b", some "2")]⟩))]
    ⟨"n", .ARBITRARY, [("a", some "3")]⟩).2 (by decide)

/-- C5: registering a fresh name stores its encoding; a second
register_secret with the same name (same or different content) fails with
SecretAlreadyExistsError, and the failed call leaves the persisted document
— in particular the first stored entry — unchanged. -/
theorem C5_register_unique (d : Document) (s s2 : SecretSchema)
    (h : secretExists d s.name = false) (hname : s2.name = s.name) :
    ∃ d1, registerSecret d s = .ok d1 ∧
      lookupKey s.name d1 = some (some (encode s)) ∧
      registerSecret d1 s2 = .error (.secretAlreadyExists s.name) ∧
      applyOp d1 (registerSecret d1 s2) = d1 := by
  have hex : secretExists (setKey s.name (some (encode s)) d) s.name = true :=
    secretExists_setKey_entry _ _ _
  refine ⟨setKey s.name (some (encode s)) d, by simp [registerSecret, h],
    lookupKey_setKey_self _ _ _, ?_, ?_⟩
  · simp [registerSecret, hname, hex]
  · simp [applyOp, registerSecret, hname, hex]

theorem C5_register_unique_witness :
    ∃ d1, registerSecret [] ⟨"db", .ARBITRARY, [("k", some "v")]⟩ = .ok d1 ∧
      lookupKey "db" d1 = some (some (encode ⟨"db", .ARBITRARY, [("k", some "v")]⟩)) ∧
      registerSecret d1 ⟨"db", .ARBITRARY, [("k", some "w")]⟩ =
        .error (.secretAlreadyExists "db") ∧
      applyOp d1 (registerSecret d1 ⟨"db", .ARBITRARY, [("k", some "w")]⟩) = d1 :=
  C5_register_unique [] ⟨"db", .ARBITRARY, [("k", some "v")]⟩
    ⟨"db", .ARBITRARY, [("k", some "w")]⟩ (by decide) (by decide)

/-- C6: get_secret fails with SecretNotFoundError when the name is absent
from the document, and otherwise returns the result of decoding the stored
entry for the name. -/
theorem C6_get_decodes (r : Registry) (d : Document) (n : String) :
    (secretExists d n = false → getSecret r d n = .error (.secretNotFound n)) ∧
    (∀ e, lookupKey n d = some (some e) → getSecret r d n = decode r e n) := by
  constructor
  · intro h
    cases hl : lookupKey n d with
    | none => simp [getSecret, hl]
    | some o =>
      cases o with
      | none => simp [getSecret, hl]
      | some e => simp [secretExists, hl] at h
  · intro e he
    simp [getSecret, he]

theorem C6_get_decodes_witness :
    getSecret defaultRegistry [] "absent" = .error (.secretNotFound "absent") ∧
    getSecret defaultRegistry [("db", some [(FLAVOR_KEY, "aws")])] "db" =
      decode defaultRegistry [(FLAVOR_KEY, "aws")] "db" :=
  ⟨(C6_get_decodes defaultRegistry [] "absent").1 (by decide),
   (C6_get_decodes defaultRegistry [("db", some [(FLAVOR_KEY, "aws")])] "db").2
     [(FLAVOR_KEY, "aws")] (by decide)⟩

/-- C7: the key transform is collision-free — no user key escapes to the
reserved key __flavor, distinct user keys have distinct escapes, and
unescape recovers every key exactly, including the empty string. -/
theorem C7_escape_collision_free :
    (∀ k : String, escapeKey k ≠ FLAVOR_KEY) ∧
    (∀ k1 k2 : String, k1 ≠ k2 → escapeKey k1 ≠ escapeKey k2) ∧
    (∀ k : String, unescapeKey (escapeKey k) = k) := by
  refine ⟨escapeKey_ne_flavor, ?_, unescape_escape⟩
  intro k1 k2 h hc
  exact h (escapeKey_injective k1 k2 hc)

theorem C7_escape_collision_free_witness :
    escapeKey "a" ≠ FLAVOR_KEY ∧
    escapeKey "a" ≠ escapeKey "b" ∧
    unescapeKey (escapeKey "") = "" :=
  ⟨C7_escape_collision_free.1 "a",
   C7_escape_collision_free.2.1 "a" "b" (by decide),
   C7_escape_collision_free.2.2 ""⟩

/-- C8: construction of the Local Secrets Manager is idempotent — a missing
backing file is created holding an empty document, an existing document is
left with every entry unchanged, the file exists after any construction, and
constructing a second time changes nothing. -/
theorem C8_init_idempotent :
    constructLocal none = some [] ∧
    (∀ fs : Option Document, (constructLocal fs).isSome = true) ∧
    (∀ d : Document, constructLocal (some d) = some d) ∧
    (∀ fs : Option Document, constructLocal (constructLocal fs) = constructLocal fs) := by
  refine ⟨rfl, ?_, ?_, ?_⟩
  · intro fs
    cases fs <;> rfl
  · intro d
    rfl
  · intro fs
    cases fs <;> rfl

/-- C9: flavor registration fails with DuplicateFlavorError when the id is
bound to a different constructor, is a no-op when bound to an identical
constructor, resolution fails with UnknownFlavorError for an unregistered
id, and registration keeps at most one constructor bound per id. -/
theorem C9_registry_contract :
    (∀ (r : Registry) (fid : String) (c c0 : SchemaCtor),
      lookupCtor fid r = some c0 → c0 ≠ c →
        registerFlavor r fid c = .error (.duplicateFlavor fid)) ∧
    (∀ (r : Registry) (fid : String) (c : SchemaCtor),
      lookupCtor fid r = some c → registerFlavor r fid c = .ok r) ∧
    (∀ (r : Registry) (fid : String),
      lookupCtor fid r = none → resolveFlavor r fid = .error (.unknownFlavor fid)) ∧
    (∀ (r r2 : Registry) (fid : String) (c : SchemaCtor),
      (r.map Prod.fst).Nodup → registerFlavor r fid c = .ok r2 →
        (r2.map Prod.fst).Nodup) := by
  refine ⟨?_, ?_, ?_, ?_⟩
  · intro r fid c c0 hl hne
    simp [registerFlavor, hl, hne]
  · intro r fid c hl
    simp [registerFlavor, hl]
  · intro r fid hl
    simp [resolveFlavor, hl]
  · intro r r2 fid c hnd hreg
    cases hl : lookupCtor fid r with
    | some c0 =>
      by_cases hc : c0 = c
      · simp [registerFlavor, hl, hc] at hreg
        rw [← hreg]
        exact hnd
      · simp [registerFlavor, hl, hc] at hreg
    | none =>
      simp [registerFlavor, hl] at hreg
      rw [← hreg]
      simp only [List.map_cons, List.nodup_cons]
      exact ⟨lookupCtor_none_not_mem fid r hl, hnd⟩

theorem C9_registry_contract_witness :
    registerFlavor [("aws", ⟨.AWS⟩)] "aws" ⟨.DEFAULT⟩ =
      .error (.duplicateFlavor "aws") ∧
    registerFlavor [("aws", ⟨.AWS⟩)] "aws" ⟨.AWS⟩ = .ok [("aws", ⟨.AWS⟩)] ∧
    resolveFlavor [] "zzz" = .error (.unknownFlavor "zzz") ∧
    (([("aws", (⟨.AWS⟩ : SchemaCtor))].map Prod.fst).Nodup) :=
  ⟨C9_registry_contract.1 [("aws", ⟨.AWS⟩)] "aws" ⟨.DEFAULT⟩ ⟨.AWS⟩ (by decide) (by decide),
   C9_registry_contract.2.1 [("aws", ⟨.AWS⟩)] "aws" ⟨.AWS⟩ (by decide),
   C9_registry_contract.2.2.1 [] "zzz" (by decide),
   C9_registry_contract.2.2.2 [] [("aws", ⟨.AWS⟩)] "aws" ⟨.AWS⟩ (by simp) rfl⟩

/-- C10: decode fails with CorruptEntryError when the reserved __flavor key
is absent or its value does not resolve via the Flavor Registry; the error
propagates unchanged to the caller of get_secret, and a corrupt (non-null)
entry is never silently dropped from the listed names. -/
theorem C10_corrupt_surfaces (r : Registry) (d : Document) (entry : EncodedEntry)
    (n fid : String) :
    (lookupStr FLAVOR_KEY entry = none →
      decode r entry n = .error (.corruptEntry n)) ∧
    (lookupStr FLAVOR_KEY entry = some fid →
      resolveFlavor r fid = .error (.unknownFlavor fid) →
      decode r entry n = .error (.corruptEntry n)) ∧
    (∀ err : SMError, lookupKey n d = some (some entry) →
      decode r entry n = .error err → getSecret r d n = .error err) ∧
    (lookupKey n d = some (some entry) → n ∈ listSecretNames d) := by
  refine ⟨?_, ?_, ?_, ?_⟩
  · intro h
    simp [decode, h]
  · intro h1 h2
    have hl : lookupCtor fid r = none := by
      unfold resolveFlavor at h2
      cases hl : lookupCtor fid r with
      | some c => rw [hl] at h2; cases h2
      | none => rfl
    simp [decode, h1, hl]
  · intro err h1 h2
    simp [getSecret, h1, h2]
  · exact mem_listSecretNames_of_entry n entry d

theorem C10_corrupt_surfaces_witness :
    decode defaultRegistry [] "db" = .error (.corruptEntry "db") ∧
    decode defaultRegistry [(FLAVOR_KEY, "nope")] "db" = .error (.corruptEntry "db") ∧
    getSecret defaultRegistry [("db", some [])] "db" = .error (.corruptEntry "db") ∧
    "db" ∈ listSecretNames [("db", some [])] :=
  ⟨(C10_corrupt_surfaces defaultRegistry [] [] "db" "nope").1 rfl,
   (C10_corrupt_surfaces defaultRegistry [] [(FLAVOR_KEY, "nope")] "db" "nope").2.1
     rfl rfl,
   (C10_corrupt_surfaces defaultRegistry [("db", some [])] [] "db" "nope").2.2.1
     (.corruptEntry "db") rfl rfl,
   (C10_corrupt_surfaces defaultRegistry [("db", some [])] [] "db" "nope").2.2.2
     rfl⟩

end ZenMLSecrets
